import Mathlib

set_option maxRecDepth 40000

/- The Batteries rational arithmetic is irreducible by default; concrete
evaluations below go through these operations. -/
attribute [local semireducible] Rat.mul Rat.add Rat.sub Rat.inv

/- Verification of the two daily-bar screeners of this repository:
   dragon_back_strategy.py (Profile A, support-retest) and
   volume_bottom_scanner.py (Profile B, deep-contraction-at-low).
   Prices and volumes are modelled as rationals; a CSV cell is an
   Option so that a missing or unparsable field is representable. -/

/-- The exceptions that can arise inside the per-instrument try/except
blocks: a missing or unparsable cell (KeyError / parse failure), an
out-of-range positional access (IndexError), and a zero divisor. -/
inductive EvalErr where
  | missingField
  | indexError
  | divByZero
deriving DecidableEq

/-- One row of a Profile A CSV file, columns 开盘 (openPrice), 收盘
(closePrice), 成交量 (volume).  A cell is none when the field is missing
or unparsable. -/
structure Row where
  openPrice : Option ℚ
  closePrice : Option ℚ
  volume : Option ℚ
deriving DecidableEq

/-- The dict returned by dragon_back_strategy.analyze_stock on success
(lines 65-71 of the source). -/
structure Verdict where
  code : String
  latest_close : ℚ
  support_price : ℚ
  signal_score : ℕ
  operation_advice : String
deriving DecidableEq

def pre30 : String := "30"

def pre688 : String := "688"

def pre60 : String := "60"

def pre00 : String := "00"

def stST : String := "ST"

def stPT : String := "PT"

def stStar : String := "*"

def advice70 : String := "试错性买入 (轻仓)"

def advice90 : String := "重点关注 (半仓进攻)"

def advice100 : String := "一击必中 (核心重仓)"

/-- Python substring test sub in s. -/
def containsStr (s sub : String) : Bool := decide (sub.data <:+: s.data)

/-- Python str.startswith. -/
def startsWithStr (s p : String) : Bool := decide (p.data <+: s.data)

/-- Read a required cell; raises the given error when the cell is
missing or unparsable. -/
def getCell (e : EvalErr) : Option ℚ → Except EvalErr ℚ
  | some q => .ok q
  | none => .error e

/-- Read a whole column of required cells. -/
def fieldsM (e : EvalErr) : List (Option ℚ) → Except EvalErr (List ℚ)
  | [] => .ok []
  | c :: cs =>
    match c with
    | none => .error e
    | some q =>
      match fieldsM e cs with
      | .ok l => .ok (q :: l)
      | .error err => .error err

/-- Position of the first maximal element of a list (pandas
Series.idxmax keeps the first occurrence on ties); 0 on the empty
list. -/
def argmaxIdx : List ℚ → ℕ
  | [] => 0
  | [_] => 0
  | x :: y :: xs =>
    if x < (y :: xs).getD (argmaxIdx (y :: xs)) 0 then argmaxIdx (y :: xs) + 1 else 0

/-- Running maximum: the largest of m and the elements of the list. -/
def maxQaux (m : ℚ) : List ℚ → ℚ
  | [] => m
  | x :: xs => if m < x then maxQaux x xs else maxQaux m xs

/-- Maximum of a list of rationals (pandas Series.max), none when
empty. -/
def maxQ : List ℚ → Option ℚ
  | [] => none
  | x :: xs => some (maxQaux x xs)

/-- Running minimum: the smallest of m and the elements of the list. -/
def minQaux (m : ℚ) : List ℚ → ℚ
  | [] => m
  | x :: xs => if x < m then minQaux x xs else minQaux m xs

/-- Minimum of a list of rationals (pandas Series.min), none when
empty. -/
def minQ : List ℚ → Option ℚ
  | [] => none
  | x :: xs => some (minQaux x xs)

/-- Python round(x, 2): x rounded to a multiple of 1/100.  Python
rounds ties on the underlying binary float to even; no claim exercises
a tie, so the tie is resolved upward here. -/
def round2 (q : ℚ) : ℚ := ((⌊q * 100 + 1 / 2⌋ : ℤ) : ℚ) / 100

/-- The code filter of dragon_back_strategy.py line 27:
code.startswith(('30', '688')) or 'ST' in code.  Note it inspects the
code, not the display name. -/
def eligACheck (code : String) : Bool :=
  startsWithStr code pre30 || startsWithStr code pre688 || containsStr code stST

/-- The try-block of dragon_back_strategy.analyze_stock (source lines
22-71).  code is the file stem, df the parsed CSV rows in file order
(read_csv keeps a RangeIndex, so the pandas label of a row equals its
position and df.loc on a label from recent_20.idxmax() is positional
lookup in the full frame). -/
def analyze_stock_body (code : String) (df : List Row) : Except EvalErr (Option Verdict) :=
  if df.length < 30 then .ok none
  else if eligACheck code then .ok none
  else
    match df[df.length - 1]? with
    | none => .error .indexError
    | some last_row =>
      match getCell .missingField last_row.closePrice with
      | .error e => .error e
      | .ok close_price =>
        if ¬ (5 ≤ close_price ∧ close_price ≤ 20) then .ok none
        else
          let recent_20 := df.drop (df.length - 20)
          match fieldsM .missingField (recent_20.map Row.volume) with
          | .error e => .error e
          | .ok wvols =>
            let max_vol_idx := df.length - 20 + argmaxIdx wvols
            match df[max_vol_idx]? with
            | none => .error .indexError
            | some ref_row =>
              match getCell .missingField ref_row.openPrice with
              | .error e => .error e
              | .ok start_price =>
                if start_price = 0 then .error .divByZero
                else
                  let price_diff := |close_price - start_price| / start_price
                  let is_at_support := decide (price_diff ≤ 3 / 100)
                  match getCell .missingField last_row.volume with
                  | .error e => .error e
                  | .ok last_vol =>
                    match getCell .missingField ref_row.volume with
                    | .error e => .error e
                    | .ok ref_vol =>
                      if ref_vol = 0 then .error .divByZero
                      else
                        let is_shrinking := decide (last_vol / ref_vol < 1 / 2)
                        if is_at_support && is_shrinking then
                          match fieldsM .missingField (recent_20.map Row.closePrice) with
                          | .error e => .error e
                          | .ok cls =>
                            let ma5v := (cls.drop (cls.length - 5)).sum / 5
                            match df[df.length - 2]? with
                            | none => .error .indexError
                            | some prev_row =>
                              match getCell .missingField prev_row.volume with
                              | .error e => .error e
                              | .ok prev_vol =>
                                let score1 : ℕ := if close_price > ma5v then 70 + 20 else 70
                                let advice1 := if close_price > ma5v then advice90 else advice70
                                let score2 := if last_vol > prev_vol then score1 + 10 else score1
                                let advice2 := if last_vol > prev_vol then advice100 else advice1
                                if 70 ≤ score2 then
                                  .ok (some { code := code, latest_close := close_price,
                                              support_price := round2 start_price,
                                              signal_score := score2,
                                              operation_advice := advice2 })
                                else .ok none
                        else .ok none

/-- dragon_back_strategy.analyze_stock: the surrounding try/except
(lines 21, 72-73) turns any evaluation error into None. -/
def analyze_stock (code : String) (df : List Row) : Option Verdict :=
  match analyze_stock_body code df with
  | .ok r => r
  | .error _ => none

/-- Close of the last bar, df.iloc[-1]['收盘'] (0 when absent). -/
def lastClose (df : List Row) : ℚ := (df[df.length - 1]?.bind Row.closePrice).getD 0

/-- Volume of the last bar, df.iloc[-1]['成交量'] (0 when absent). -/
def lastVol (df : List Row) : ℚ := (df[df.length - 1]?.bind Row.volume).getD 0

/-- Volume of the second-to-last bar, df.iloc[-2]['成交量']. -/
def prevVol (df : List Row) : ℚ := (df[df.length - 2]?.bind Row.volume).getD 0

/-- The trailing 20-bar window df.tail(20). -/
def window20 (df : List Row) : List Row := df.drop (df.length - 20)

/-- The volumes of the trailing 20-bar window. -/
def wVols (df : List Row) : List ℚ := (window20 df).map (fun r => r.volume.getD 0)

/-- The closes of the trailing 20-bar window. -/
def wCloses (df : List Row) : List ℚ := (window20 df).map (fun r => r.closePrice.getD 0)

/-- The opens of the trailing 20-bar window. -/
def wOpens (df : List Row) : List ℚ := (window20 df).map (fun r => r.openPrice.getD 0)

/-- Full-frame index of the reference (max-volume) day,
recent_20['成交量'].idxmax(). -/
def refIdx (df : List Row) : ℕ := df.length - 20 + argmaxIdx (wVols df)

/-- Opening price of the reference day, df.loc[max_vol_idx, '开盘'],
the presumed support level. -/
def supportPrice (df : List Row) : ℚ := (df[refIdx df]?.bind Row.openPrice).getD 0

/-- Volume of the reference day, df.loc[max_vol_idx, '成交量']. -/
def refVol (df : List Row) : ℚ := (df[refIdx df]?.bind Row.volume).getD 0

/-- Support proximity abs(close - support) / support. -/
def proximity (df : List Row) : ℚ := |lastClose df - supportPrice df| / supportPrice df

/-- Volume contraction quotient latest_volume / reference_day_volume
(vol_ratio in the source). -/
def volQuot (df : List Row) : ℚ := lastVol df / refVol df

/-- 5-day simple moving average of close at the latest bar,
recent_20['收盘'].rolling(5).mean().iloc[-1]. -/
def ma5 (df : List Row) : ℚ := ((wCloses df).drop ((wCloses df).length - 5)).sum / 5

/-- The moving-average bonus condition (source line 56). -/
def maCond (df : List Row) : Prop := lastClose df > ma5 df

instance (df : List Row) : Decidable (maCond df) := by
  unfold maCond
  infer_instance

/-- The re-expansion bonus condition (source line 60). -/
def reCond (df : List Row) : Prop := lastVol df > prevVol df

instance (df : List Row) : Decidable (reCond df) := by
  unfold reCond
  infer_instance

/-- Final score of the ladder of source lines 49-62 for a series that
passes both base conditions. -/
def scoreOf (df : List Row) : ℕ :=
  if reCond df then (if maCond df then 70 + 20 else 70) + 10
  else (if maCond df then 70 + 20 else 70)

/-- Final advice label of the ladder of source lines 49-62. -/
def adviceOf (df : List Row) : String :=
  if reCond df then advice100 else (if maCond df then advice90 else advice70)

/-- All cells of the frame are present (a well-formed numeric CSV). -/
def WFa (df : List Row) : Prop :=
  ∀ r ∈ df, r.openPrice.isSome ∧ r.closePrice.isSome ∧ r.volume.isSome

instance (df : List Row) : Decidable (WFa df) := by
  unfold WFa
  infer_instance

/-- One row of a Profile B CSV, columns 日期 (date), 收盘 (closePrice),
成交量 (volume).  Date keys are modelled as naturals ordered exactly as
the CSV date strings compare lexicographically. -/
structure RowB where
  date : ℕ
  closePrice : Option ℚ
  volume : Option ℚ
deriving DecidableEq

/-- The dict returned by volume_bottom_scanner.analyze_stock_file on
success (source lines 107-114). -/
structure VerdictB where
  Code : String
  Name : String
  Latest_Close : ℚ
  Latest_Volume : ℚ
  Max_Volume_120d : ℚ
  Low_Price_40d_Threshold : ℚ
deriving DecidableEq

def PRICE_MIN : ℚ := 5

def PRICE_MAX : ℚ := 15

def VOLUME_PERIOD : ℕ := 120

def PRICE_LOW_PERIOD : ℕ := 40

/-- VOLUME_SHRINK_RATIO of the source (0.03), renamed. -/
def VOLUME_SHRINK_FRAC : ℚ := 3 / 100

/-- PRICE_LOW_RANGE_RATIO of the source (0.03), renamed. -/
def PRICE_LOW_RANGE_FRAC : ℚ := 3 / 100

/-- Date order used by df.sort_values(by='日期'). -/
def dateLe (a b : RowB) : Prop := a.date ≤ b.date

instance : DecidableRel dateLe := fun a b => inferInstanceAs (Decidable (a.date ≤ b.date))

/-- df.sort_values(by=DATE_COL).reset_index(drop=True), source line 74.
Insertion sort models the sort; tie order is immaterial because the
data model forbids duplicate dates. -/
def sortByDate (df : List RowB) : List RowB := List.insertionSort dateLe df

/-- The try-block of volume_bottom_scanner.analyze_stock_file (source
lines 72-114). -/
def analyze_stock_file_body (code name : String) (df0 : List RowB) :
    Except EvalErr (Option VerdictB) :=
  let df := sortByDate df0
  if df.length < max VOLUME_PERIOD PRICE_LOW_PERIOD then .ok none
  else
    match df[df.length - 1]? with
    | none => .error .indexError
    | some latest_data =>
      match getCell .missingField latest_data.closePrice with
      | .error e => .error e
      | .ok latest_close =>
        match getCell .missingField latest_data.volume with
        | .error e => .error e
        | .ok latest_volume =>
          if ¬ (PRICE_MIN ≤ latest_close ∧ latest_close ≤ PRICE_MAX) then .ok none
          else
            let history_df := df.drop (df.length - max VOLUME_PERIOD PRICE_LOW_PERIOD)
            match fieldsM .missingField
                ((history_df.drop (history_df.length - VOLUME_PERIOD)).map RowB.volume) with
            | .error e => .error e
            | .ok hvols =>
              match maxQ hvols with
              | none => .error .indexError
              | some max_volume =>
                if latest_volume > max_volume * VOLUME_SHRINK_FRAC then .ok none
                else
                  match fieldsM .missingField
                      ((history_df.drop (history_df.length - PRICE_LOW_PERIOD)).map RowB.closePrice) with
                  | .error e => .error e
                  | .ok phist =>
                    match minQ phist, maxQ phist with
                    | some low_price, some high_price =>
                      let price_range := high_price - low_price
                      let low_threshold := low_price + PRICE_LOW_RANGE_FRAC * price_range
                      if latest_close > low_threshold then .ok none
                      else
                        .ok (some { Code := code, Name := name,
                                    Latest_Close := latest_close,
                                    Latest_Volume := latest_volume,
                                    Max_Volume_120d := max_volume,
                                    Low_Price_40d_Threshold := low_threshold })
                    | _, _ => .error .indexError

/-- volume_bottom_scanner.analyze_stock_file (source lines 46-121):
identity checks A.1-A.3 outside the try block, then the try-block whose
exceptions all collapse to None.  code is the zero-filled file stem,
name the lookup STOCK_NAMES_DICT.get(code, '未知名称'). -/
def analyze_stock_file (code name : String) (df : List RowB) : Option VerdictB :=
  if startsWithStr code pre30 then none
  else if containsStr name stST || containsStr name stPT || containsStr name stStar then none
  else if !(startsWithStr code pre60 || startsWithStr code pre00) then none
  else
    match analyze_stock_file_body code name df with
    | .ok r => r
    | .error _ => none

/-- The trailing max(120, 40)-bar window of the date-sorted frame. -/
def histB (df : List RowB) : List RowB :=
  (sortByDate df).drop ((sortByDate df).length - max VOLUME_PERIOD PRICE_LOW_PERIOD)

/-- The trailing 120 volumes of the date-sorted frame. -/
def volWinB (df : List RowB) : List ℚ :=
  ((histB df).drop ((histB df).length - VOLUME_PERIOD)).map (fun r => r.volume.getD 0)

/-- The trailing 40 closes of the date-sorted frame. -/
def closeWinB (df : List RowB) : List ℚ :=
  ((histB df).drop ((histB df).length - PRICE_LOW_PERIOD)).map (fun r => r.closePrice.getD 0)

/-- Close of the last bar of the date-sorted frame. -/
def bLastClose (df : List RowB) : ℚ :=
  ((sortByDate df)[(sortByDate df).length - 1]?.bind RowB.closePrice).getD 0

/-- Volume of the last bar of the date-sorted frame. -/
def bLastVol (df : List RowB) : ℚ :=
  ((sortByDate df)[(sortByDate df).length - 1]?.bind RowB.volume).getD 0

/-- max_volume: the 120-day reference maximum volume. -/
def maxVolB (df : List RowB) : ℚ := (maxQ (volWinB df)).getD 0

/-- low_price over the trailing 40 closes. -/
def lowB (df : List RowB) : ℚ := (minQ (closeWinB df)).getD 0

/-- high_price over the trailing 40 closes. -/
def highB (df : List RowB) : ℚ := (maxQ (closeWinB df)).getD 0

/-- low_threshold = low_price + PRICE_LOW_RANGE_RATIO * price_range. -/
def lowThrB (df : List RowB) : ℚ := lowB df + PRICE_LOW_RANGE_FRAC * (highB df - lowB df)

/-- One row of Profile A output after the left-join with
stock_names.csv in dragon_back_strategy.main. -/
structure ResultRowA where
  verdict : Verdict
  name : Option String
deriving DecidableEq

/-- Descending order on signal_score used by
sort_values(by='signal_score', ascending=False). -/
def scoreGe (a b : ResultRowA) : Prop :=
  b.verdict.signal_score ≤ a.verdict.signal_score

instance : DecidableRel scoreGe := fun a b =>
  inferInstanceAs (Decidable (b.verdict.signal_score ≤ a.verdict.signal_score))

instance : IsTotal ResultRowA scoreGe :=
  ⟨fun a b => le_total b.verdict.signal_score a.verdict.signal_score⟩

instance : IsTrans ResultRowA scoreGe :=
  ⟨fun _ _ _ h1 h2 => le_trans h2 h1⟩

/-- The per-instrument fan-out of dragon_back_strategy.main: one
analyze_stock call per (code, rows) file, None results dropped. -/
def profileA_results (files : List (String × List Row)) : List Verdict :=
  files.filterMap (fun f => analyze_stock f.1 f.2)

/-- final_df.merge(names_df, on='code', how='left'): left join keyed on
code (first match; unmatched codes keep no name). -/
def mergeNames (vs : List Verdict) (names : List (String × String)) : List ResultRowA :=
  vs.map (fun v => { verdict := v, name := names.lookup v.code })

/-- sort_values(by='signal_score', ascending=False).head(5), source
line 93, resolved to one deterministic model: a descending insertion
sort followed by take 5.  pandas' default kind='quicksort' documents no
tie order (only 'mergesort' and 'stable' are stable; numpy argsort is
insertion sort only below its ~16-element threshold), so rankA is
faithful exactly where the sort contract determines the result: lists
without tied scores, and the short frames of the concrete fixtures.
The program itself is only specified up to IsRankResult below. -/
def rankA (rs : List ResultRowA) : List ResultRowA :=
  (List.insertionSort scoreGe rs).take 5

/-- The documented contract of sort_values(by='signal_score',
ascending=False) with the default kind='quicksort': some permutation of
the rows that is sorted by signal_score descending; the relative order
of tied scores is unspecified. -/
def IsSortDescOf (rs out : List ResultRowA) : Prop :=
  out.Perm rs ∧ List.Sorted scoreGe out

/-- The contract of source line 93, sort then head(5): the lists the
program may return for the given collected rows. -/
def IsRankResult (rs out : List ResultRowA) : Prop :=
  ∃ sorted, IsSortDescOf rs sorted ∧ out = sorted.take 5

/-- dragon_back_strategy.main after the parallel map: filter the None
results, left-join names, sort by score descending, truncate to 5. -/
def profileA_pipeline (files : List (String × List Row))
    (names : List (String × String)) : List ResultRowA :=
  rankA (mergeNames (profileA_results files) names)

def codeA : String := "000001"

def codeB : String := "600000"

def nameB : String := "示例"

def nameST : String := "ST测试"

def code30 : String := "300001"

def codeSTA : String := "STX001"

/-- A quiet bar: open 10, close 10, volume 1000. -/
def baseRowA : Row := ⟨some 10, some 10, some 1000⟩

/-- The reference high-volume bar: open 10, close 10, volume 100000. -/
def spikeRowA : Row := ⟨some 10, some 10, some 100000⟩

/-- A last bar with the given close and volume, open 10. -/
def mkLastA (c v : ℚ) : Row := ⟨some 10, some c, some v⟩

/-- A 30-bar series: 15 quiet bars, the volume spike, 13 quiet bars,
then a last bar with the given close and volume.  The trailing 20-bar
window is bars 10-29 and the spike sits at window position 5. -/
def rowsA (c v : ℚ) : List Row :=
  List.replicate 15 baseRowA ++ spikeRowA :: List.replicate 13 baseRowA ++ [mkLastA c v]

def rows70 : List Row := rowsA 10 1000

def rows80 : List Row := rowsA 10 2000

def rows90 : List Row := rowsA (51 / 5) 1000

def rows100 : List Row := rowsA (51 / 5) 2000

def rows29 : List Row := List.replicate 29 baseRowA

/-- 30 bars whose last volume cell is missing: evaluation raises. -/
def malRowsA : List Row := List.replicate 29 baseRowA ++ [⟨some 10, some 10, none⟩]

def vA70 : Verdict := ⟨codeA, 10, 10, 70, advice70⟩

def vA80 : Verdict := ⟨codeA, 10, 10, 80, advice100⟩

def vA90 : Verdict := ⟨codeA, 51 / 5, 10, 90, advice90⟩

def vA100 : Verdict := ⟨codeA, 51 / 5, 10, 100, advice100⟩

def rowB (i : ℕ) (c v : ℚ) : RowB := ⟨i, some c, some v⟩

/-- 120 date-sorted bars, close 10 and volume 100000 everywhere except
a last volume of 1000: passes every Profile B condition. -/
def rowsBpass : List RowB :=
  (List.range 120).map (fun i => rowB i 10 (if i = 119 then 1000 else 100000))

/-- Same as rowsBpass but the last volume 50000 violates the shrink
condition. -/
def rowsBfail : List RowB :=
  (List.range 120).map (fun i => rowB i 10 (if i = 119 then 50000 else 100000))

def rows119 : List RowB := (List.range 119).map (fun i => rowB i 10 100000)

/-- 120 bars whose last close cell is missing: evaluation raises. -/
def malRowsB : List RowB := rows119 ++ [⟨119, none, some 1000⟩]

def vBpass : VerdictB := ⟨codeB, nameB, 10, 1000, 100000, 10⟩

/-- A ranked-row fixture with the given score. -/
def mkRR (s : ℕ) : ResultRowA := ⟨⟨codeA, 10, 10, s, advice70⟩, none⟩

def demo7 : List ResultRowA :=
  [mkRR 40, mkRR 95, mkRR 70, mkRR 80, mkRR 100, mkRR 90, mkRR 60]

def demo7top5 : List ResultRowA :=
  [mkRR 100, mkRR 95, mkRR 90, mkRR 80, mkRR 70]

def demo7sorted : List ResultRowA :=
  [mkRR 100, mkRR 95, mkRR 90, mkRR 80, mkRR 70, mkRR 60, mkRR 40]

/-- A ranked-row fixture with score 70 and the given code. -/
def tiedRow (i : ℕ) : ResultRowA := ⟨⟨toString i, 10, 10, 70, advice70⟩, none⟩

/-- 18 distinct rows with tied scores: larger than numpy's insertion
sort threshold, so the tie order of the real sort is unspecified. -/
def tiedRows18 : List ResultRowA := (List.range 18).map tiedRow

lemma getCell_ok {e : EvalErr} {o : Option ℚ} {q : ℚ} (h : getCell e o = .ok q) :
    o = some q := by
  cases o with
  | none => exact absurd h (by simp [getCell])
  | some x =>
    obtain rfl : x = q := by simpa [getCell] using h
    rfl

lemma fieldsM_ok_of_all {e : EvalErr} :
    ∀ (cs : List (Option ℚ)), (∀ c ∈ cs, c.isSome) →
      fieldsM e cs = .ok (cs.map (fun c => c.getD 0))
  | [], _ => rfl
  | none :: _, h => absurd (h none (by simp)) (by simp)
  | some q :: cs, h => by
    simp [fieldsM, fieldsM_ok_of_all cs (fun x hx => h x (by simp [hx]))]

lemma fieldsM_ok_inv {e : EvalErr} :
    ∀ (cs : List (Option ℚ)) {l : List ℚ}, fieldsM e cs = .ok l →
      l = cs.map (fun c => c.getD 0)
  | [], l, h => by simpa [fieldsM] using h.symm
  | none :: _, l, h => by simp [fieldsM] at h
  | some q :: cs, l, h => by
    cases hr : fieldsM e cs with
    | error err => rw [fieldsM, hr] at h; exact absurd h (by simp)
    | ok l2 =>
      rw [fieldsM, hr] at h
      obtain rfl : q :: l2 = l := by simpa using h
      simp [← fieldsM_ok_inv cs hr]

lemma argmaxIdx_lt_length : ∀ (l : List ℚ), l ≠ [] → argmaxIdx l < l.length
  | [_], _ => by simp [argmaxIdx]
  | x :: y :: xs, _ => by
    have ih := argmaxIdx_lt_length (y :: xs) (by simp)
    by_cases hc : x < (y :: xs).getD (argmaxIdx (y :: xs)) 0
    · simp only [argmaxIdx, if_pos hc, List.length_cons]
      simp only [List.length_cons] at ih
      omega
    · simp only [argmaxIdx, if_neg hc]
      simp

lemma argmaxIdx_ge : ∀ (l : List ℚ) (k : ℕ), k < l.length →
    l.getD k 0 ≤ l.getD (argmaxIdx l) 0
  | [], k, h => by simp at h
  | [x], k, h => by
    obtain rfl : k = 0 := by simpa using h
    simp [argmaxIdx]
  | x :: y :: xs, k, h => by
    by_cases hc : x < (y :: xs).getD (argmaxIdx (y :: xs)) 0
    · simp only [argmaxIdx, if_pos hc]
      cases k with
      | zero => simpa using le_of_lt hc
      | succ k =>
        simpa using argmaxIdx_ge (y :: xs) k (by simpa using h)
    · simp only [argmaxIdx, if_neg hc]
      push_neg at hc
      cases k with
      | zero => simp
      | succ k =>
        have := argmaxIdx_ge (y :: xs) k (by simpa using h)
        simpa using le_trans this hc

lemma argmaxIdx_first : ∀ (l : List ℚ) (k : ℕ), k < argmaxIdx l →
    l.getD k 0 < l.getD (argmaxIdx l) 0
  | [], k, h => by simp [argmaxIdx] at h
  | [_], k, h => by simp [argmaxIdx] at h
  | x :: y :: xs, k, h => by
    by_cases hc : x < (y :: xs).getD (argmaxIdx (y :: xs)) 0
    · simp only [argmaxIdx, if_pos hc] at h ⊢
      cases k with
      | zero => simpa using hc
      | succ k => simpa using argmaxIdx_first (y :: xs) k (by omega)
    · simp only [argmaxIdx, if_neg hc] at h
      simp at h

lemma maxQaux_spec : ∀ (l : List ℚ) (m : ℚ),
    (maxQaux m l = m ∨ maxQaux m l ∈ l) ∧ m ≤ maxQaux m l ∧ ∀ q ∈ l, q ≤ maxQaux m l
  | [], m => ⟨Or.inl rfl, le_refl m, by simp⟩
  | x :: xs, m => by
    obtain ⟨ih1, ih2, ih3⟩ := maxQaux_spec xs x
    obtain ⟨jh1, jh2, jh3⟩ := maxQaux_spec xs m
    by_cases h : m < x
    · simp only [maxQaux, if_pos h]
      refine ⟨Or.inr ?_, le_trans (le_of_lt h) ih2, ?_⟩
      · rcases ih1 with h1 | h1
        · rw [h1]; exact List.mem_cons_self x xs
        · exact List.mem_cons_of_mem x h1
      · intro q hq
        rcases List.mem_cons.mp hq with rfl | hq
        · exact ih2
        · exact ih3 q hq
    · simp only [maxQaux, if_neg h]
      push_neg at h
      refine ⟨?_, jh2, ?_⟩
      · rcases jh1 with h1 | h1
        · exact Or.inl h1
        · exact Or.inr (List.mem_cons_of_mem x h1)
      · intro q hq
        rcases List.mem_cons.mp hq with rfl | hq
        · exact le_trans h jh2
        · exact jh3 q hq

lemma maxQ_spec : ∀ (l : List ℚ) {m : ℚ}, maxQ l = some m → m ∈ l ∧ ∀ q ∈ l, q ≤ m
  | [], m, h => by simp [maxQ] at h
  | x :: xs, m, h => by
    obtain rfl : maxQaux x xs = m := by simpa [maxQ] using h
    obtain ⟨h1, h2, h3⟩ := maxQaux_spec xs x
    refine ⟨?_, ?_⟩
    · rcases h1 with h1 | h1
      · rw [h1]; exact List.mem_cons_self x xs
      · exact List.mem_cons_of_mem x h1
    · intro q hq
      rcases List.mem_cons.mp hq with rfl | hq
      · exact h2
      · exact h3 q hq

lemma minQaux_spec : ∀ (l : List ℚ) (m : ℚ),
    (minQaux m l = m ∨ minQaux m l ∈ l) ∧ minQaux m l ≤ m ∧ ∀ q ∈ l, minQaux m l ≤ q
  | [], m => ⟨Or.inl rfl, le_refl m, by simp⟩
  | x :: xs, m => by
    obtain ⟨ih1, ih2, ih3⟩ := minQaux_spec xs x
    obtain ⟨jh1, jh2, jh3⟩ := minQaux_spec xs m
    by_cases h : x < m
    · simp only [minQaux, if_pos h]
      refine ⟨Or.inr ?_, le_trans ih2 (le_of_lt h), ?_⟩
      · rcases ih1 with h1 | h1
        · rw [h1]; exact List.mem_cons_self x xs
        · exact List.mem_cons_of_mem x h1
      · intro q hq
        rcases List.mem_cons.mp hq with rfl | hq
        · exact ih2
        · exact ih3 q hq
    · simp only [minQaux, if_neg h]
      push_neg at h
      refine ⟨?_, jh2, ?_⟩
      · rcases jh1 with h1 | h1
        · exact Or.inl h1
        · exact Or.inr (List.mem_cons_of_mem x h1)
      · intro q hq
        rcases List.mem_cons.mp hq with rfl | hq
        · exact le_trans jh2 h
        · exact jh3 q hq

lemma minQ_spec : ∀ (l : List ℚ) {m : ℚ}, minQ l = some m → m ∈ l ∧ ∀ q ∈ l, m ≤ q
  | [], m, h => by simp [minQ] at h
  | x :: xs, m, h => by
    obtain rfl : minQaux x xs = m := by simpa [minQ] using h
    obtain ⟨h1, h2, h3⟩ := minQaux_spec xs x
    refine ⟨?_, ?_⟩
    · rcases h1 with h1 | h1
      · rw [h1]; exact List.mem_cons_self x xs
      · exact List.mem_cons_of_mem x h1
    · intro q hq
      rcases List.mem_cons.mp hq with rfl | hq
      · exact h2
      · exact h3 q hq

lemma WFa_mem {df : List Row} (hw : WFa df) {r : Row} (h : r ∈ df) :
    ∃ o c q, r = ⟨some o, some c, some q⟩ := by
  obtain ⟨h1, h2, h3⟩ := hw r h
  obtain ⟨a, b, d⟩ := r
  obtain ⟨o, ho⟩ := Option.isSome_iff_exists.mp h1
  obtain ⟨c, hc⟩ := Option.isSome_iff_exists.mp h2
  obtain ⟨q, hq⟩ := Option.isSome_iff_exists.mp h3
  exact ⟨o, c, q, by simp_all⟩

lemma wField_getD (df : List Row) (j : ℕ) (f : Row → Option ℚ) :
    ((window20 df).map (fun r => (f r).getD 0)).getD j 0 =
      (df[df.length - 20 + j]?.bind f).getD 0 := by
  rw [List.getD_eq_getElem?_getD, List.getElem?_map, window20, List.getElem?_drop]
  cases df[df.length - 20 + j]? <;> rfl

lemma bodyA_run (code : String) (df : List Row) (hw : WFa df) (hlen : 30 ≤ df.length)
    (hs : supportPrice df ≠ 0) (hv : refVol df ≠ 0) :
    analyze_stock_body code df = .ok (
      if eligACheck code = true then none
      else if ¬ (5 ≤ lastClose df ∧ lastClose df ≤ 20) then none
      else if proximity df ≤ 3 / 100 ∧ volQuot df < 1 / 2 then
        some { code := code, latest_close := lastClose df,
               support_price := round2 (supportPrice df),
               signal_score := scoreOf df, operation_advice := adviceOf df }
      else none) := by
  have h1 : df.length - 1 < df.length := by omega
  obtain ⟨lo, lc, lv, hrow⟩ := WFa_mem hw (List.getElem_mem h1)
  have hL2 : df[df.length - 1]? = some ⟨some lo, some lc, some lv⟩ := by
    rw [List.getElem?_eq_getElem h1, hrow]
  have hcl : lastClose df = lc := by simp [lastClose, hL2]
  have hlv : lastVol df = lv := by simp [lastVol, hL2]
  have hwv : fieldsM .missingField ((df.drop (df.length - 20)).map Row.volume)
      = .ok (wVols df) := by
    rw [fieldsM_ok_of_all]
    · rw [wVols, window20, List.map_map]
      rfl
    · intro c hc
      obtain ⟨r, hr, rfl⟩ := List.mem_map.mp hc
      exact (hw r (List.mem_of_mem_drop hr)).2.2
  have hwc : fieldsM .missingField ((df.drop (df.length - 20)).map Row.closePrice)
      = .ok (wCloses df) := by
    rw [fieldsM_ok_of_all]
    · rw [wCloses, window20, List.map_map]
      rfl
    · intro c hc
      obtain ⟨r, hr, rfl⟩ := List.mem_map.mp hc
      exact (hw r (List.mem_of_mem_drop hr)).2.1
  have hwl : (wVols df).length = 20 := by
    simp [wVols, window20]
    omega
  have hj : argmaxIdx (wVols df) < 20 := by
    have := argmaxIdx_lt_length (wVols df) (by
      intro hnil
      rw [hnil] at hwl
      simp at hwl)
    omega
  have h2 : df.length - 20 + argmaxIdx (wVols df) < df.length := by omega
  obtain ⟨ro, rc, rv, hrr⟩ := WFa_mem hw (List.getElem_mem h2)
  have hR2 : df[df.length - 20 + argmaxIdx (wVols df)]? = some ⟨some ro, some rc, some rv⟩ := by
    rw [List.getElem?_eq_getElem h2, hrr]
  have hsp : supportPrice df = ro := by simp [supportPrice, refIdx, hR2]
  have hrv : refVol df = rv := by simp [refVol, refIdx, hR2]
  have h3 : df.length - 2 < df.length := by omega
  obtain ⟨po, pc, pv, hpr⟩ := WFa_mem hw (List.getElem_mem h3)
  have hP2 : df[df.length - 2]? = some ⟨some po, some pc, some pv⟩ := by
    rw [List.getElem?_eq_getElem h3, hpr]
  have hpv : prevVol df = pv := by simp [prevVol, hP2]
  have hprox : proximity df = |lc - ro| / ro := by rw [proximity, hcl, hsp]
  have hvq : volQuot df = lv / rv := by rw [volQuot, hlv, hrv]
  have hma5 : ma5 df = ((wCloses df).drop ((wCloses df).length - 5)).sum / 5 := rfl
  have hmaiff : lc > ma5 df ↔ maCond df := by rw [maCond, hcl]
  have hreiff : lv > pv ↔ reCond df := by rw [reCond, hlv, hpv]
  rw [hsp] at hs
  rw [hrv] at hv
  unfold analyze_stock_body
  rw [hcl, hprox, hvq, hsp]
  rw [if_neg (by omega : ¬ df.length < 30)]
  by_cases he : eligACheck code = true
  · rw [if_pos he, if_pos he]
  rw [if_neg he, if_neg he]
  simp only [hL2, getCell, hwv, hR2, hP2, hwc]
  rw [if_neg hs, if_neg hv]
  by_cases hband : 5 ≤ lc ∧ lc ≤ 20
  case neg =>
    rw [if_pos hband, if_pos hband]
  case pos =>
  rw [if_neg (not_not_intro hband), if_neg (not_not_intro hband)]
  simp only [Bool.and_eq_true, decide_eq_true_eq]
  by_cases hcond : |lc - ro| / ro ≤ 3 / 100 ∧ lv / rv < 1 / 2
  case neg =>
    rw [if_neg hcond, if_neg hcond]
  case pos =>
  rw [if_pos hcond, if_pos hcond]
  rw [← hma5]
  by_cases hma : maCond df <;> by_cases hre : reCond df <;>
    norm_num [scoreOf, adviceOf, hmaiff, hreiff, hma, hre]
lemma analyzeA_some_inv {code : String} {df : List Row} {v : Verdict}
    (h : analyze_stock code df = some v) :
    30 ≤ df.length ∧ eligACheck code = false ∧
    5 ≤ lastClose df ∧ lastClose df ≤ 20 ∧
    proximity df ≤ 3 / 100 ∧ volQuot df < 1 / 2 ∧
    v = { code := code, latest_close := lastClose df,
          support_price := round2 (supportPrice df),
          signal_score := scoreOf df, operation_advice := adviceOf df } := by
  have hb : analyze_stock_body code df = .ok (some v) := by
    unfold analyze_stock at h
    cases hb : analyze_stock_body code df with
    | error e => rw [hb] at h; simp at h
    | ok r =>
      rw [hb] at h
      have h2 : r = some v := h
      exact congrArg Except.ok h2
  unfold analyze_stock_body at hb
  by_cases hlen : df.length < 30
  · rw [if_pos hlen] at hb; simp at hb
  rw [if_neg hlen] at hb
  by_cases he : eligACheck code = true
  · rw [if_pos he] at hb; simp at hb
  rw [if_neg he] at hb
  cases h1 : df[df.length - 1]? with
  | none => simp only [h1] at hb; simp at hb
  | some last_row =>
  simp only [h1] at hb
  cases hc1 : last_row.closePrice with
  | none => simp only [hc1, getCell] at hb; simp at hb
  | some close_price =>
  simp only [hc1, getCell] at hb
  by_cases hband : 5 ≤ close_price ∧ close_price ≤ 20
  case neg => rw [if_pos hband] at hb; simp at hb
  rw [if_neg (not_not_intro hband)] at hb
  cases hw1 : fieldsM .missingField ((df.drop (df.length - 20)).map Row.volume) with
  | error e => simp only [hw1] at hb; simp at hb
  | ok wvols =>
  simp only [hw1] at hb
  have hwveq : wvols = wVols df := by
    rw [fieldsM_ok_inv _ hw1, List.map_map]
    rfl
  rw [hwveq] at hb
  cases h2 : df[df.length - 20 + argmaxIdx (wVols df)]? with
  | none => simp only [h2] at hb; simp at hb
  | some ref_row =>
  simp only [h2] at hb
  cases hro : ref_row.openPrice with
  | none => simp only [hro, getCell] at hb; simp at hb
  | some start_price =>
  simp only [hro, getCell] at hb
  by_cases hs0 : start_price = 0
  case pos => rw [if_pos hs0] at hb; simp at hb
  rw [if_neg hs0] at hb
  cases hlv1 : last_row.volume with
  | none => simp only [hlv1, getCell] at hb; simp at hb
  | some last_vol =>
  simp only [hlv1, getCell] at hb
  cases hrv1 : ref_row.volume with
  | none => simp only [hrv1, getCell] at hb; simp at hb
  | some ref_vol =>
  simp only [hrv1, getCell] at hb
  by_cases hrv0 : ref_vol = 0
  case pos => rw [if_pos hrv0] at hb; simp at hb
  rw [if_neg hrv0] at hb
  by_cases hcb : (decide (|close_price - start_price| / start_price ≤ 3 / 100)
      && decide (last_vol / ref_vol < 1 / 2)) = true
  case neg =>
    rw [if_neg hcb] at hb; simp at hb
  rw [if_pos hcb] at hb
  cases hw2 : fieldsM .missingField ((df.drop (df.length - 20)).map Row.closePrice) with
  | error e => simp only [hw2] at hb; simp at hb
  | ok cls =>
  simp only [hw2] at hb
  have hclseq : cls = wCloses df := by
    rw [fieldsM_ok_inv _ hw2, List.map_map]
    rfl
  rw [hclseq] at hb
  cases h3 : df[df.length - 2]? with
  | none => simp only [h3] at hb; simp at hb
  | some prev_row =>
  simp only [h3] at hb
  cases hpv1 : prev_row.volume with
  | none => simp only [hpv1, getCell] at hb; simp at hb
  | some prev_vol =>
  simp only [hpv1, getCell] at hb
  rw [Bool.and_eq_true, decide_eq_true_eq, decide_eq_true_eq] at hcb
  have hcl : lastClose df = close_price := by simp [lastClose, h1, hc1]
  have hlvq : lastVol df = last_vol := by simp [lastVol, h1, hlv1]
  have hsp : supportPrice df = start_price := by simp [supportPrice, refIdx, h2, hro]
  have hrvq : refVol df = ref_vol := by simp [refVol, refIdx, h2, hrv1]
  have hpvq : prevVol df = prev_vol := by simp [prevVol, h3, hpv1]
  have hprox : proximity df = |close_price - start_price| / start_price := by
    rw [proximity, hcl, hsp]
  have hvq : volQuot df = last_vol / ref_vol := by rw [volQuot, hlvq, hrvq]
  have hma5 : ma5 df = ((wCloses df).drop ((wCloses df).length - 5)).sum / 5 := rfl
  have hmaiff : close_price > ((wCloses df).drop ((wCloses df).length - 5)).sum / 5
      ↔ maCond df := by rw [maCond, hcl, hma5]
  have hreiff : last_vol > prev_vol ↔ reCond df := by rw [reCond, hlvq, hpvq]
  refine ⟨by omega, by simpa using he, hcl ▸ hband.1, hcl ▸ hband.2,
    hprox ▸ hcb.1, hvq ▸ hcb.2, ?_⟩
  by_cases hre : reCond df
  · by_cases hma : maCond df
    · have hre2 := hreiff.mpr hre
      have hma2 := hmaiff.mpr hma
      simp only [if_pos hre2, if_pos hma2] at hb
      rw [if_pos (by norm_num)] at hb
      have hv2 := Option.some.inj (Except.ok.inj hb)
      rw [← hv2]
      simp only [scoreOf, adviceOf, if_pos hre, if_pos hma, hcl, hsp]
    · have hre2 := hreiff.mpr hre
      have hma2 : ¬ close_price > ((wCloses df).drop ((wCloses df).length - 5)).sum / 5 :=
        fun hgt => hma (hmaiff.mp hgt)
      simp only [if_pos hre2, if_neg hma2] at hb
      rw [if_pos (by norm_num)] at hb
      have hv2 := Option.some.inj (Except.ok.inj hb)
      rw [← hv2]
      simp only [scoreOf, adviceOf, if_pos hre, if_neg hma, hcl, hsp]
  · by_cases hma : maCond df
    · have hre2 : ¬ last_vol > prev_vol := fun hgt => hre (hreiff.mp hgt)
      have hma2 := hmaiff.mpr hma
      simp only [if_neg hre2, if_pos hma2] at hb
      rw [if_pos (by norm_num)] at hb
      have hv2 := Option.some.inj (Except.ok.inj hb)
      rw [← hv2]
      simp only [scoreOf, adviceOf, if_neg hre, if_pos hma, hcl, hsp]
    · have hre2 : ¬ last_vol > prev_vol := fun hgt => hre (hreiff.mp hgt)
      have hma2 : ¬ close_price > ((wCloses df).drop ((wCloses df).length - 5)).sum / 5 :=
        fun hgt => hma (hmaiff.mp hgt)
      simp only [if_neg hre2, if_neg hma2] at hb
      rw [if_pos (by norm_num)] at hb
      have hv2 := Option.some.inj (Except.ok.inj hb)
      rw [← hv2]
      simp only [scoreOf, adviceOf, if_neg hre, if_neg hma, hcl, hsp]

lemma analyzeA_run (code : String) (df : List Row) (hw : WFa df) (hlen : 30 ≤ df.length)
    (hcode : eligACheck code = false)
    (hb1 : 5 ≤ lastClose df) (hb2 : lastClose df ≤ 20)
    (hs : supportPrice df ≠ 0) (hv : refVol df ≠ 0) :
    analyze_stock code df =
      if proximity df ≤ 3 / 100 ∧ volQuot df < 1 / 2 then
        some { code := code, latest_close := lastClose df,
               support_price := round2 (supportPrice df),
               signal_score := scoreOf df, operation_advice := adviceOf df }
      else none := by
  unfold analyze_stock
  rw [bodyA_run code df hw hlen hs hv]
  rw [if_neg (by simp [hcode])]
  rw [if_neg (not_not_intro ⟨hb1, hb2⟩)]

lemma wVols_length {df : List Row} (h : 20 ≤ df.length) : (wVols df).length = 20 := by
  simp [wVols, window20]
  omega

lemma argmax_wVols_lt {df : List Row} (h : 30 ≤ df.length) :
    argmaxIdx (wVols df) < (wVols df).length := by
  apply argmaxIdx_lt_length
  intro hnil
  have := wVols_length (by omega : 20 ≤ df.length)
  rw [hnil] at this
  simp at this

lemma refVol_eq_getD (df : List Row) :
    refVol df = (wVols df).getD (argmaxIdx (wVols df)) 0 :=
  (wField_getD df _ Row.volume).symm

lemma supportPrice_eq_getD (df : List Row) :
    supportPrice df = (wOpens df).getD (argmaxIdx (wVols df)) 0 :=
  (wField_getD df _ Row.openPrice).symm

/-- C10: for a series of at least 30 bars with all cells present,
positive open prices and a positive trailing-20-bar maximum volume,
every element access of analyze_stock is in bounds, both divisors are
nonzero, and the evaluation finishes without an exception. -/
theorem profileA_no_exception :
    ∀ (code : String) (df : List Row), 30 ≤ df.length → WFa df →
      (∀ r ∈ df, 0 < r.openPrice.getD 0) →
      (∃ k, k < (wVols df).length ∧ 0 < (wVols df).getD k 0) →
      (df.length - 1 < df.length ∧ df.length - 2 < df.length ∧
        refIdx df < df.length ∧ argmaxIdx (wVols df) < (wVols df).length ∧
        supportPrice df ≠ 0 ∧ refVol df ≠ 0) ∧
      ∃ o, analyze_stock_body code df = .ok o := by
  intro code df hlen hw hopen hmax
  have hjl : argmaxIdx (wVols df) < (wVols df).length := argmax_wVols_lt hlen
  have hwl := wVols_length (by omega : 20 ≤ df.length)
  have href : refIdx df < df.length := by
    unfold refIdx
    omega
  have hrvpos : 0 < refVol df := by
    obtain ⟨k, hk, hkpos⟩ := hmax
    rw [refVol_eq_getD]
    exact lt_of_lt_of_le hkpos (argmaxIdx_ge _ k hk)
  have hsppos : 0 < supportPrice df := by
    have h1 : supportPrice df = (df[refIdx df].openPrice).getD 0 := by
      rw [supportPrice, List.getElem?_eq_getElem href]
      rfl
    rw [h1]
    exact hopen _ (List.getElem_mem href)
  refine ⟨⟨by omega, by omega, href, hjl, ne_of_gt hsppos, ne_of_gt hrvpos⟩, ?_⟩
  exact ⟨_, bodyA_run code df hw hlen (ne_of_gt hsppos) (ne_of_gt hrvpos)⟩

theorem profileA_no_exception_witness :
    (rows70.length - 1 < rows70.length ∧ rows70.length - 2 < rows70.length ∧
      refIdx rows70 < rows70.length ∧ argmaxIdx (wVols rows70) < (wVols rows70).length ∧
      supportPrice rows70 ≠ 0 ∧ refVol rows70 ≠ 0) ∧
    ∃ o, analyze_stock_body codeA rows70 = .ok o :=
  profileA_no_exception codeA rows70 (by decide) (by decide) (by decide) ⟨5, by decide⟩

/-- C1: for an eligible, well-formed series (length at least 30, code
check and price band passed, nonzero support and reference volume),
analyze_stock emits a Verdict if and only if proximity is at most 0.03
and the volume quotient is below 0.5; when proximity exceeds 0.03 no
Verdict is emitted. -/
theorem profileA_emission_gating :
    ∀ (code : String) (df : List Row), WFa df → 30 ≤ df.length → eligACheck code = false →
      5 ≤ lastClose df → lastClose df ≤ 20 →
      supportPrice df ≠ 0 → refVol df ≠ 0 →
      ((∃ v, analyze_stock code df = some v) ↔
        (proximity df ≤ 3 / 100 ∧ volQuot df < 1 / 2)) ∧
      (3 / 100 < proximity df → analyze_stock code df = none) := by
  intro code df hw hlen hcode hb1 hb2 hs hv
  have hrun := analyzeA_run code df hw hlen hcode hb1 hb2 hs hv
  constructor
  · constructor
    · rintro ⟨v, hsome⟩
      by_contra hc
      rw [hrun, if_neg hc] at hsome
      exact Option.noConfusion hsome
    · intro hcond
      exact ⟨_, by rw [hrun, if_pos hcond]⟩
  · intro hgt
    rw [hrun, if_neg]
    rintro ⟨hle, -⟩
    exact absurd hle (not_le.mpr hgt)

theorem profileA_emission_gating_witness :
    ((∃ v, analyze_stock codeA rows70 = some v) ↔
      (proximity rows70 ≤ 3 / 100 ∧ volQuot rows70 < 1 / 2)) ∧
    (3 / 100 < proximity rows70 → analyze_stock codeA rows70 = none) :=
  profileA_emission_gating codeA rows70 (by decide) (by decide) (by decide) (by decide)
    (by decide) (by decide) (by decide)

/-- C9: every emitted Profile A Verdict has signal_score 70, 80, 90 or
100, and each of the four values is attained by a concrete input; in
particular score 80 is reachable. -/
theorem profileA_score_range :
    (∀ (code : String) (df : List Row) (v : Verdict), analyze_stock code df = some v →
      v.signal_score = 70 ∨ v.signal_score = 80 ∨ v.signal_score = 90 ∨ v.signal_score = 100) ∧
    (analyze_stock codeA rows70 = some vA70 ∧ vA70.signal_score = 70) ∧
    (analyze_stock codeA rows80 = some vA80 ∧ vA80.signal_score = 80) ∧
    (analyze_stock codeA rows90 = some vA90 ∧ vA90.signal_score = 90) ∧
    (analyze_stock codeA rows100 = some vA100 ∧ vA100.signal_score = 100) := by
  refine ⟨?_, ⟨by decide, by decide⟩, ⟨by decide, by decide⟩,
    ⟨by decide, by decide⟩, ⟨by decide, by decide⟩⟩
  intro code df v h
  obtain ⟨-, -, -, -, -, -, hveq⟩ := analyzeA_some_inv h
  rw [hveq]
  show scoreOf df = 70 ∨ scoreOf df = 80 ∨ scoreOf df = 90 ∨ scoreOf df = 100
  by_cases hre : reCond df <;> by_cases hma : maCond df <;>
    simp [scoreOf, hre, hma]

theorem profileA_score_range_witness :
    vA70.signal_score = 70 ∨ vA70.signal_score = 80 ∨
    vA70.signal_score = 90 ∨ vA70.signal_score = 100 :=
  profileA_score_range.1 codeA rows70 vA70 (by decide)

/-- C3 (amended): for every emitted Profile A Verdict, the
moving-average bonus forces score at least 90; the re-expansion bonus
alone gives score 80, and together with the moving-average bonus score
100; with neither bonus the score is exactly 70. -/
theorem profileA_score_ladder_amended :
    ∀ (code : String) (df : List Row) (v : Verdict), analyze_stock code df = some v →
      (maCond df → 90 ≤ v.signal_score) ∧
      (reCond df → 80 ≤ v.signal_score) ∧
      (reCond df ∧ maCond df → v.signal_score = 100) ∧
      (reCond df ∧ ¬ maCond df → v.signal_score = 80) ∧
      (¬ reCond df ∧ ¬ maCond df → v.signal_score = 70) := by
  intro code df v h
  obtain ⟨-, -, -, -, -, -, hveq⟩ := analyzeA_some_inv h
  rw [hveq]
  show (maCond df → 90 ≤ scoreOf df) ∧ (reCond df → 80 ≤ scoreOf df) ∧
    (reCond df ∧ maCond df → scoreOf df = 100) ∧
    (reCond df ∧ ¬ maCond df → scoreOf df = 80) ∧
    (¬ reCond df ∧ ¬ maCond df → scoreOf df = 70)
  by_cases hre : reCond df <;> by_cases hma : maCond df <;>
    simp [scoreOf, hre, hma]

theorem profileA_score_ladder_amended_witness :
    vA80.signal_score = 80 :=
  (profileA_score_ladder_amended codeA rows80 vA80 (by decide)).2.2.2.1
    ⟨by decide, by decide⟩

/-- C3 (counterexample to the original claim): rows80 satisfies the
re-expansion condition, a Verdict is emitted, and its score is 80, not
100. -/
theorem profileA_reexpansion_counterexample :
    analyze_stock codeA rows80 = some vA80 ∧
    lastVol rows80 > prevVol rows80 ∧ vA80.signal_score ≠ 100 := by
  decide

/-- C4: the support price of every emitted Profile A Verdict is the
opening price of the first bar attaining the maximal volume in the
trailing 20-bar window, rounded to two decimals. -/
theorem profileA_support_price :
    ∀ (code : String) (df : List Row) (v : Verdict), analyze_stock code df = some v →
      ∃ j, j < (wVols df).length ∧
        v.support_price = round2 ((wOpens df).getD j 0) ∧
        (∀ k, k < (wVols df).length → (wVols df).getD k 0 ≤ (wVols df).getD j 0) ∧
        (∀ k, k < j → (wVols df).getD k 0 < (wVols df).getD j 0) := by
  intro code df v h
  obtain ⟨hlen, -, -, -, -, -, hveq⟩ := analyzeA_some_inv h
  refine ⟨argmaxIdx (wVols df), argmax_wVols_lt hlen, ?_,
    fun k hk => argmaxIdx_ge _ k hk, fun k hk => argmaxIdx_first _ k hk⟩
  rw [hveq]
  show round2 (supportPrice df) = round2 ((wOpens df).getD (argmaxIdx (wVols df)) 0)
  rw [supportPrice_eq_getD]

theorem profileA_support_price_witness :
    ∃ j, j < (wVols rows70).length ∧
      vA70.support_price = round2 ((wOpens rows70).getD j 0) ∧
      (∀ k, k < (wVols rows70).length → (wVols rows70).getD k 0 ≤ (wVols rows70).getD j 0) ∧
      (∀ k, k < j → (wVols rows70).getD k 0 < (wVols rows70).getD j 0) :=
  profileA_support_price codeA rows70 vA70 (by decide)

lemma analyzeB_some_inv {code name : String} {df : List RowB} {v : VerdictB}
    (h : analyze_stock_file code name df = some v) :
    max VOLUME_PERIOD PRICE_LOW_PERIOD ≤ df.length ∧
    v = { Code := code, Name := name, Latest_Close := bLastClose df,
          Latest_Volume := bLastVol df, Max_Volume_120d := maxVolB df,
          Low_Price_40d_Threshold := lowThrB df } ∧
    maxQ (volWinB df) = some (maxVolB df) ∧
    minQ (closeWinB df) = some (lowB df) ∧
    maxQ (closeWinB df) = some (highB df) ∧
    ¬ (bLastVol df > maxVolB df * VOLUME_SHRINK_FRAC) ∧
    ¬ (bLastClose df > lowThrB df) := by
  unfold analyze_stock_file at h
  by_cases he1 : startsWithStr code pre30 = true
  · rw [if_pos he1] at h; exact Option.noConfusion h
  rw [if_neg he1] at h
  by_cases he2 : (containsStr name stST || containsStr name stPT || containsStr name stStar) = true
  · rw [if_pos he2] at h; exact Option.noConfusion h
  rw [if_neg he2] at h
  by_cases he3 : (!(startsWithStr code pre60 || startsWithStr code pre00)) = true
  · rw [if_pos he3] at h; exact Option.noConfusion h
  rw [if_neg he3] at h
  have hb : analyze_stock_file_body code name df = .ok (some v) := by
    cases hb : analyze_stock_file_body code name df with
    | error e => rw [hb] at h; simp at h
    | ok r =>
      rw [hb] at h
      have h2 : r = some v := h
      exact congrArg Except.ok h2
  clear h
  have hsl : (sortByDate df).length = df.length := by
    simp [sortByDate, List.length_insertionSort]
  unfold analyze_stock_file_body at hb
  by_cases hlen : df.length < max VOLUME_PERIOD PRICE_LOW_PERIOD
  · rw [if_pos (by rw [hsl]; omega :
      (sortByDate df).length < max VOLUME_PERIOD PRICE_LOW_PERIOD)] at hb
    simp at hb
  rw [if_neg (by rw [hsl]; omega :
    ¬ (sortByDate df).length < max VOLUME_PERIOD PRICE_LOW_PERIOD)] at hb
  cases h1 : (sortByDate df)[(sortByDate df).length - 1]? with
  | none => simp only [h1] at hb; simp at hb
  | some latest =>
  simp only [h1] at hb
  cases hc1 : latest.closePrice with
  | none => simp only [hc1, getCell] at hb; simp at hb
  | some latest_close =>
  simp only [hc1, getCell] at hb
  cases hv1 : latest.volume with
  | none => simp only [hv1, getCell] at hb; simp at hb
  | some latest_volume =>
  simp only [hv1, getCell] at hb
  by_cases hband : PRICE_MIN ≤ latest_close ∧ latest_close ≤ PRICE_MAX
  case neg => rw [if_pos hband] at hb; simp at hb
  rw [if_neg (not_not_intro hband)] at hb
  cases hw1 : fieldsM .missingField
      ((((sortByDate df).drop ((sortByDate df).length - max VOLUME_PERIOD PRICE_LOW_PERIOD)).drop
        (((sortByDate df).drop ((sortByDate df).length - max VOLUME_PERIOD PRICE_LOW_PERIOD)).length
          - VOLUME_PERIOD)).map RowB.volume) with
  | error e => simp only [hw1] at hb; simp at hb
  | ok hvols =>
  simp only [hw1] at hb
  have hveq : hvols = volWinB df := by
    rw [fieldsM_ok_inv _ hw1, List.map_map]
    rfl
  rw [hveq] at hb
  cases hm1 : maxQ (volWinB df) with
  | none => simp only [hm1] at hb; simp at hb
  | some max_volume =>
  simp only [hm1] at hb
  have hmv : maxVolB df = max_volume := by rw [maxVolB, hm1]; rfl
  by_cases hshrink : latest_volume > max_volume * VOLUME_SHRINK_FRAC
  case pos => rw [if_pos hshrink] at hb; simp at hb
  rw [if_neg hshrink] at hb
  cases hw2 : fieldsM .missingField
      ((((sortByDate df).drop ((sortByDate df).length - max VOLUME_PERIOD PRICE_LOW_PERIOD)).drop
        (((sortByDate df).drop ((sortByDate df).length - max VOLUME_PERIOD PRICE_LOW_PERIOD)).length
          - PRICE_LOW_PERIOD)).map RowB.closePrice) with
  | error e => simp only [hw2] at hb; simp at hb
  | ok phist =>
  simp only [hw2] at hb
  have hpeq : phist = closeWinB df := by
    rw [fieldsM_ok_inv _ hw2, List.map_map]
    rfl
  rw [hpeq] at hb
  cases hlo : minQ (closeWinB df) with
  | none => simp only [hlo] at hb; simp at hb
  | some low_price =>
  cases hhi : maxQ (closeWinB df) with
  | none => simp only [hlo, hhi] at hb; simp at hb
  | some high_price =>
  simp only [hlo, hhi] at hb
  have hloq : lowB df = low_price := by rw [lowB, hlo]; rfl
  have hhiq : highB df = high_price := by rw [highB, hhi]; rfl
  by_cases hlow : latest_close > low_price + PRICE_LOW_RANGE_FRAC * (high_price - low_price)
  case pos => rw [if_pos hlow] at hb; simp at hb
  rw [if_neg hlow] at hb
  have hv2 := Option.some.inj (Except.ok.inj hb)
  have hlc : bLastClose df = latest_close := by simp [bLastClose, h1, hc1]
  have hlvq : bLastVol df = latest_volume := by simp [bLastVol, h1, hv1]
  have hthr : lowThrB df = low_price + PRICE_LOW_RANGE_FRAC * (high_price - low_price) := by
    rw [lowThrB, hloq, hhiq]
  refine ⟨by omega, ?_, ?_, ?_, ?_, ?_, ?_⟩
  · rw [← hv2, hlc, hlvq, hmv, hthr]
  · rw [hmv]
  · rw [hloq]
  · rw [hhiq]
  · rw [hlvq, hmv]
    exact hshrink
  · rw [hlc, hthr]
    exact hlow

/-- C2: every Verdict of analyze_stock_file satisfies both pass
conditions, with Max_Volume_120d the maximum volume over the trailing
120 bars and Low_Price_40d_Threshold equal to low + 0.03 * (high - low)
over the trailing 40 closes; any input whose sorted series violates
either condition yields no Verdict. -/
theorem profileB_pass_conditions :
    (∀ (code name : String) (df : List RowB) (v : VerdictB),
      analyze_stock_file code name df = some v →
        v.Latest_Volume ≤ VOLUME_SHRINK_FRAC * v.Max_Volume_120d ∧
        v.Latest_Close ≤ v.Low_Price_40d_Threshold ∧
        v.Latest_Volume = bLastVol df ∧ v.Latest_Close = bLastClose df ∧
        maxQ (volWinB df) = some v.Max_Volume_120d ∧
        v.Max_Volume_120d ∈ volWinB df ∧
        (∀ q ∈ volWinB df, q ≤ v.Max_Volume_120d) ∧
        v.Low_Price_40d_Threshold = lowB df + PRICE_LOW_RANGE_FRAC * (highB df - lowB df) ∧
        lowB df ∈ closeWinB df ∧ highB df ∈ closeWinB df ∧
        (∀ q ∈ closeWinB df, lowB df ≤ q ∧ q ≤ highB df)) ∧
    (∀ (code name : String) (df : List RowB),
      (VOLUME_SHRINK_FRAC * maxVolB df < bLastVol df ∨ lowThrB df < bLastClose df) →
      analyze_stock_file code name df = none) := by
  have main : ∀ (code name : String) (df : List RowB) (v : VerdictB),
      analyze_stock_file code name df = some v →
        v.Latest_Volume ≤ VOLUME_SHRINK_FRAC * v.Max_Volume_120d ∧
        v.Latest_Close ≤ v.Low_Price_40d_Threshold ∧
        v.Latest_Volume = bLastVol df ∧ v.Latest_Close = bLastClose df ∧
        maxQ (volWinB df) = some v.Max_Volume_120d ∧
        v.Max_Volume_120d ∈ volWinB df ∧
        (∀ q ∈ volWinB df, q ≤ v.Max_Volume_120d) ∧
        v.Low_Price_40d_Threshold = lowB df + PRICE_LOW_RANGE_FRAC * (highB df - lowB df) ∧
        lowB df ∈ closeWinB df ∧ highB df ∈ closeWinB df ∧
        (∀ q ∈ closeWinB df, lowB df ≤ q ∧ q ≤ highB df) := by
    intro code name df v h
    obtain ⟨-, hveq, hmax, hmin, hmaxc, hshrink, hlow⟩ := analyzeB_some_inv h
    obtain ⟨hmaxmem, hmaxbd⟩ := maxQ_spec _ hmax
    obtain ⟨hlomem, hlobd⟩ := minQ_spec _ hmin
    obtain ⟨hhimem, hhibd⟩ := maxQ_spec _ hmaxc
    rw [hveq]
    push_neg at hshrink hlow
    refine ⟨by rw [mul_comm]; exact hshrink, hlow, rfl, rfl, hmax, hmaxmem, hmaxbd,
      rfl, hlomem, hhimem, fun q hq => ⟨hlobd q hq, hhibd q hq⟩⟩
  refine ⟨main, ?_⟩
  intro code name df hviol
  cases hres : analyze_stock_file code name df with
  | none => rfl
  | some v =>
    exfalso
    obtain ⟨-, hveq, -, -, -, hshrink, hlow⟩ := analyzeB_some_inv hres
    have h1 : v.Latest_Volume = bLastVol df := by rw [hveq]
    have h2 : v.Latest_Close = bLastClose df := by rw [hveq]
    have h3 : v.Max_Volume_120d = maxVolB df := by rw [hveq]
    have h4 : v.Low_Price_40d_Threshold = lowThrB df := by rw [hveq]
    push_neg at hshrink hlow
    rcases hviol with hv1 | hv2
    · rw [mul_comm] at hv1
      exact absurd hv1 (not_lt.mpr hshrink)
    · exact absurd hv2 (not_lt.mpr hlow)

theorem profileB_pass_conditions_witness :
    (vBpass.Latest_Volume ≤ VOLUME_SHRINK_FRAC * vBpass.Max_Volume_120d ∧
      vBpass.Latest_Close ≤ vBpass.Low_Price_40d_Threshold ∧
      vBpass.Latest_Volume = bLastVol rowsBpass ∧
      vBpass.Latest_Close = bLastClose rowsBpass ∧
      maxQ (volWinB rowsBpass) = some vBpass.Max_Volume_120d ∧
      vBpass.Max_Volume_120d ∈ volWinB rowsBpass ∧
      (∀ q ∈ volWinB rowsBpass, q ≤ vBpass.Max_Volume_120d) ∧
      vBpass.Low_Price_40d_Threshold
        = lowB rowsBpass + PRICE_LOW_RANGE_FRAC * (highB rowsBpass - lowB rowsBpass) ∧
      lowB rowsBpass ∈ closeWinB rowsBpass ∧ highB rowsBpass ∈ closeWinB rowsBpass ∧
      (∀ q ∈ closeWinB rowsBpass, lowB rowsBpass ≤ q ∧ q ≤ highB rowsBpass)) ∧
    analyze_stock_file codeB nameB rowsBfail = none :=
  ⟨profileB_pass_conditions.1 codeB nameB rowsBpass vBpass (by decide),
   profileB_pass_conditions.2 codeB nameB rowsBfail (Or.inl (by decide))⟩

lemma analyzeA_code30_none (code : String) (df : List Row)
    (h : startsWithStr code pre30 = true) : analyze_stock code df = none := by
  unfold analyze_stock analyze_stock_body
  by_cases hlen : df.length < 30
  · rw [if_pos hlen]
  · rw [if_neg hlen, if_pos (by simp [eligACheck, h])]

lemma analyzeA_codeST_none (code : String) (df : List Row)
    (h : containsStr code stST = true) : analyze_stock code df = none := by
  unfold analyze_stock analyze_stock_body
  by_cases hlen : df.length < 30
  · rw [if_pos hlen]
  · rw [if_neg hlen, if_pos (by simp [eligACheck, h])]

lemma analyzeB_code30_none (code name : String) (df : List RowB)
    (h : startsWithStr code pre30 = true) : analyze_stock_file code name df = none := by
  unfold analyze_stock_file
  rw [if_pos h]

lemma analyzeB_nameST_none (code name : String) (df : List RowB)
    (h : containsStr name stST = true) : analyze_stock_file code name df = none := by
  unfold analyze_stock_file
  by_cases h30 : startsWithStr code pre30 = true
  · rw [if_pos h30]
  · rw [if_neg h30, if_pos (by simp [h])]

/-- C5 (amended): a code starting with 30 yields no Verdict under
either profile, and a display name containing ST yields no Verdict
under Profile B; Profile A applies its ST test to the instrument code
(never to the display name), so an ST-named instrument whose code is
clean does appear in Profile A output. -/
theorem eligibility_exclusions_amended :
    (∀ (code : String) (df : List Row), startsWithStr code pre30 = true →
      analyze_stock code df = none) ∧
    (∀ (code : String) (df : List Row), containsStr code stST = true →
      analyze_stock code df = none) ∧
    (∀ (code name : String) (df : List RowB), startsWithStr code pre30 = true →
      analyze_stock_file code name df = none) ∧
    (∀ (code name : String) (df : List RowB), containsStr name stST = true →
      analyze_stock_file code name df = none) ∧
    (containsStr nameST stST = true ∧
      profileA_pipeline [(codeA, rows70)] [(codeA, nameST)] = [⟨vA70, some nameST⟩]) :=
  ⟨analyzeA_code30_none, analyzeA_codeST_none, analyzeB_code30_none, analyzeB_nameST_none,
    by decide, by decide⟩

theorem eligibility_exclusions_amended_witness :
    analyze_stock code30 rows70 = none ∧
    analyze_stock codeSTA rows70 = none ∧
    analyze_stock_file code30 nameB rowsBpass = none ∧
    analyze_stock_file codeB nameST rowsBpass = none :=
  ⟨eligibility_exclusions_amended.1 code30 rows70 (by decide),
   eligibility_exclusions_amended.2.1 codeSTA rows70 (by decide),
   eligibility_exclusions_amended.2.2.1 code30 nameB rowsBpass (by decide),
   eligibility_exclusions_amended.2.2.2.1 codeB nameST rowsBpass (by decide)⟩

/-- C5 (counterexample to the original claim): an instrument whose
display name contains ST appears in the Profile A result set. -/
theorem eligibility_st_name_counterexample :
    containsStr nameST stST = true ∧
    profileA_pipeline [(codeA, rows70)] [(codeA, nameST)] ≠ [] := by
  refine ⟨by decide, ?_⟩
  intro hempty
  have : profileA_pipeline [(codeA, rows70)] [(codeA, nameST)] = [⟨vA70, some nameST⟩] := by
    decide
  rw [this] at hempty
  exact List.noConfusion hempty

/-- C7: a 29-bar series is excluded by Profile A and a 30-bar series is
evaluated (emitting a Verdict on the rows70 fixture); a 119-bar series
is excluded by Profile B and a 120-bar series is evaluated (emitting a
Verdict on the rowsBpass fixture). -/
theorem boundary_lengths :
    (∀ (code : String) (df : List Row), df.length = 29 → analyze_stock code df = none) ∧
    rows70.length = 30 ∧ analyze_stock codeA rows70 = some vA70 ∧
    (∀ (code name : String) (df : List RowB), df.length = 119 →
      analyze_stock_file code name df = none) ∧
    rowsBpass.length = 120 ∧ analyze_stock_file codeB nameB rowsBpass = some vBpass := by
  refine ⟨?_, by decide, by decide, ?_, by decide, by decide⟩
  · intro code df hlen
    unfold analyze_stock analyze_stock_body
    rw [if_pos (by omega : df.length < 30)]
  · intro code name df hlen
    unfold analyze_stock_file
    by_cases h1 : startsWithStr code pre30 = true
    · rw [if_pos h1]
    rw [if_neg h1]
    by_cases h2 : (containsStr name stST || containsStr name stPT || containsStr name stStar) = true
    · rw [if_pos h2]
    rw [if_neg h2]
    by_cases h3 : (!(startsWithStr code pre60 || startsWithStr code pre00)) = true
    · rw [if_pos h3]
    rw [if_neg h3]
    unfold analyze_stock_file_body
    rw [if_pos (by simp [sortByDate, List.length_insertionSort, hlen, VOLUME_PERIOD,
      PRICE_LOW_PERIOD] :
      (sortByDate df).length < max VOLUME_PERIOD PRICE_LOW_PERIOD)]

theorem boundary_lengths_witness :
    analyze_stock codeA rows29 = none ∧
    analyze_stock_file codeB nameB rows119 = none :=
  ⟨boundary_lengths.1 codeA rows29 (by decide),
   boundary_lengths.2.2.2.1 codeB nameB rows119 (by decide)⟩

/-- C8: any evaluation error raised inside a per-instrument analysis is
caught at the instrument boundary and yields None for that instrument;
it never escapes to the caller. -/
theorem fail_closed_errors :
    (∀ (code : String) (df : List Row) (e : EvalErr),
      analyze_stock_body code df = .error e → analyze_stock code df = none) ∧
    (∀ (code name : String) (df : List RowB) (e : EvalErr),
      analyze_stock_file_body code name df = .error e →
        analyze_stock_file code name df = none) := by
  constructor
  · intro code df e h
    unfold analyze_stock
    rw [h]
  · intro code name df e h
    unfold analyze_stock_file
    by_cases h1 : startsWithStr code pre30 = true
    · rw [if_pos h1]
    rw [if_neg h1]
    by_cases h2 : (containsStr name stST || containsStr name stPT || containsStr name stStar) = true
    · rw [if_pos h2]
    rw [if_neg h2]
    by_cases h3 : (!(startsWithStr code pre60 || startsWithStr code pre00)) = true
    · rw [if_pos h3]
    rw [if_neg h3, h]

theorem fail_closed_errors_witness :
    analyze_stock codeA malRowsA = none ∧
    analyze_stock_file codeB nameB malRowsB = none :=
  ⟨fail_closed_errors.1 codeA malRowsA .missingField rfl,
   fail_closed_errors.2 codeB nameB malRowsB .missingField rfl⟩

lemma sorted_perm_eq_of_distinct : ∀ (l1 l2 : List ResultRowA),
    l1.Perm l2 → List.Sorted scoreGe l1 → List.Sorted scoreGe l2 →
    l2.Pairwise (fun a b => a.verdict.signal_score ≠ b.verdict.signal_score) →
    l1 = l2
  | [], l2, hp, _, _, _ => (hp.symm.eq_nil).symm
  | a :: t1, l2, hp, hs1, hs2, hd => by
    cases l2 with
    | nil => exact absurd hp.eq_nil (by simp)
    | cons b t2 =>
      have hab : a = b := by
        by_contra hne
        have ha2 : a ∈ t2 := by
          have hmem := hp.mem_iff.mp (List.mem_cons_self a t1)
          rcases List.mem_cons.mp hmem with h | h
          · exact absurd h hne
          · exact h
        have hb1 : b ∈ t1 := by
          have hmem := hp.mem_iff.mpr (List.mem_cons_self b t2)
          rcases List.mem_cons.mp hmem with h | h
          · exact absurd h.symm hne
          · exact h
        have h1 : b.verdict.signal_score ≤ a.verdict.signal_score :=
          List.rel_of_sorted_cons hs1 b hb1
        have h2 : a.verdict.signal_score ≤ b.verdict.signal_score :=
          List.rel_of_sorted_cons hs2 a ha2
        exact (List.pairwise_cons.mp hd).1 a ha2 (le_antisymm h2 h1).symm
      subst hab
      have htail := sorted_perm_eq_of_distinct t1 t2 hp.cons_inv hs1.of_cons hs2.of_cons
        (List.pairwise_cons.mp hd).2
      rw [htail]

/-- C6 (amended): every list the ranking contract of line 93 permits for
a collection of rows has length min 5 n, is sorted by signal_score in
descending order, and drops only rows that score at most every kept
row; the deterministic rankA model realizes the contract; and for the
seven-row collection with pairwise distinct scores every permitted
result - hence the program's - is exactly the five highest-scoring rows
in descending order.  The order of tied scores is not part of the
contract. -/
theorem profileA_ranking_amended :
    (∀ (rs out : List ResultRowA), IsRankResult rs out →
      out.length = min 5 rs.length ∧
      List.Sorted scoreGe out ∧
      (∃ rest, (out ++ rest).Perm rs ∧
        ∀ x ∈ rest, ∀ y ∈ out, x.verdict.signal_score ≤ y.verdict.signal_score)) ∧
    (∀ rs : List ResultRowA, IsRankResult rs (rankA rs)) ∧
    (∀ out : List ResultRowA, IsRankResult demo7 out → out = demo7top5) := by
  refine ⟨?_, ?_, ?_⟩
  · rintro rs out ⟨sorted, ⟨hperm, hsorted⟩, rfl⟩
    refine ⟨?_, ?_, ?_⟩
    · rw [List.length_take, hperm.length_eq]
    · exact List.Pairwise.sublist (List.take_sublist 5 _) hsorted
    · refine ⟨sorted.drop 5, ?_, ?_⟩
      · rw [List.take_append_drop]
        exact hperm
      · intro x hx y hy
        have hp2 := List.pairwise_append.mp
          (by rw [List.take_append_drop]; exact hsorted :
            List.Pairwise scoreGe (sorted.take 5 ++ sorted.drop 5))
        exact hp2.2.2 y hy x hx
  · intro rs
    exact ⟨List.insertionSort scoreGe rs,
      ⟨List.perm_insertionSort scoreGe rs, List.sorted_insertionSort scoreGe rs⟩, rfl⟩
  · rintro out ⟨sorted, ⟨hperm, hsorted⟩, rfl⟩
    have heq : sorted = demo7sorted :=
      sorted_perm_eq_of_distinct sorted demo7sorted
        (hperm.trans (by decide : demo7.Perm demo7sorted)) hsorted
        (by decide) (by decide)
    rw [heq]
    decide

theorem profileA_ranking_amended_witness :
    (rankA demo7).length = min 5 demo7.length ∧ rankA demo7 = demo7top5 :=
  ⟨(profileA_ranking_amended.1 demo7 (rankA demo7)
      ⟨List.insertionSort scoreGe demo7, ⟨by decide, by decide⟩, rfl⟩).1,
   profileA_ranking_amended.2.2 (rankA demo7)
      ⟨List.insertionSort scoreGe demo7, ⟨by decide, by decide⟩, rfl⟩⟩

/-- C6 (counterexample to the original claim): on 18 distinct rows with
tied scores - beyond the threshold under which numpy argsort happens to
be a stable insertion sort - the sort contract of line 93 admits the
reversed order, whose per-score filter does not preserve the input
order, so stable tie-breaking is not a property of the program. -/
theorem profileA_ranking_tie_counterexample :
    IsRankResult tiedRows18 (tiedRows18.reverse.take 5) ∧
    ¬ ((tiedRows18.reverse.take 5).filter (fun x => decide (x.verdict.signal_score = 70)) <+:
        tiedRows18.filter (fun x => decide (x.verdict.signal_score = 70))) :=
  ⟨⟨tiedRows18.reverse, ⟨List.reverse_perm tiedRows18, by decide⟩, rfl⟩, by decide⟩
